import Mathlib

/-!
# MtA response verifiers (`src/common/cosigner/mta.h`)

A shallow embedding of the header `mta.h` of the cosigner library: the
batching constants, the verifier class hierarchy, the factory
`new_response_verifier`, and the three MtA entry points.

The header contains the bodies of `new_response_verifier` and of
`single_response_verifier::verify`, the member layout of the three classes
and the two constants.  Everything else it only declares.  The bodies of
the two `process` overrides and of `batch_response_verifier::verify` are
parameters (`method_bodies`): a body may do anything that the `const`
qualifiers of the header allow.  The constructors and the three MtA entry
points carry a doc comment that starts with "Modelled from the spec:".
-/

namespace mta

set_option linter.unusedVariables false

/-! ## Collaborator types -/

/-- Modelled from the spec: `byte_vector_t` comes from `cosigner/types.h`,
which is not part of the sources; a byte vector is a sequence of octets. -/
abbrev byte_vector_t := List (Fin 256)

/-- Modelled from the spec: `elliptic_curve256_algebra_ctx_t` is declared
outside the sources.  The spec describes it as scalar arithmetic modulo the
curve order, so the context is represented by that order. -/
structure elliptic_curve256_algebra_ctx_t where
  order : Nat
deriving DecidableEq

/-- Modelled from the spec: a scalar is a curve-order-sized integer; the
type itself lives in `cosigner/types.h`. -/
abbrev elliptic_curve_scalar := Nat

/-- Modelled from the spec: a curve point is an external value that the
verifier only passes on; it is kept as its encoding. -/
structure elliptic_curve_point where
  data : byte_vector_t
deriving DecidableEq

/-- Modelled from the spec: `crypto/paillier/paillier.h` is not part of the
sources.  The public half of a Paillier key is the modulus `n` together
with `n2 = n * n`. -/
structure paillier_public_key_t where
  n : Nat
  n2 : Nat
deriving DecidableEq

/-- Modelled from the spec: the private half of a Paillier key holds the
factorisation-derived secrets: the primes, `lamda` and `mu`. -/
structure paillier_private_key_t where
  pub : paillier_public_key_t
  p : Nat
  q : Nat
  lamda : Nat
  mu : Nat
deriving DecidableEq

/-- Modelled from the spec: `crypto/commitments/ring_pedersen.h` is not part
of the sources.  Public Ring-Pedersen parameters are a modulus and the two
bases. -/
structure ring_pedersen_public_t where
  n : Nat
  s : Nat
  t : Nat
deriving DecidableEq

/-- Modelled from the spec: private Ring-Pedersen parameters, "analogous
public/private split". -/
structure ring_pedersen_private_t where
  pub : ring_pedersen_public_t
  lamda : Nat
  phi_n : Nat
deriving DecidableEq

/-- Modelled from the spec: `cmp_mta_message` is declared in
`cosigner/cmp_ecdsa_signing_service.h`, outside the sources.  The spec
gives it two logical fields: one Paillier ciphertext (kept as the integer
it encodes) and one serialized range proof. -/
structure cmp_mta_message where
  message : Nat
  proof : byte_vector_t
deriving DecidableEq

/-- The struct `bignum_ctx` is only forward declared in the header; it is a
scratch arena of the big-number library, represented by the number of
temporaries it has handed out. -/
structure bignum_ctx where
  used : Nat
deriving DecidableEq

/-- The struct `bn_mont_ctx_st` is only forward declared in the header; a
Montgomery context is represented by the modulus it was set up for. -/
structure bn_mont_ctx_st where
  modulus : Nat
deriving DecidableEq

/-- Modelled from the spec: the error kinds of section 7 of the spec, the
recoverable `range-violation` of section 4.2, and the `illegal-transition`
error that the design notes ask for.  The header itself names no error. -/
inductive cosigner_error
  | cryptographic_invariant_violation
  | key_error
  | decryption_error
  | proof_verification_failure
  | range_violation
  | illegal_transition
deriving DecidableEq

/-! ## Constants -/

/-- Addition of two `size_t` values on a platform whose `size_t` has `w`
bits. -/
def size_t_add (w a b : Nat) : Nat := (a + b) % 2 ^ w

/-- The constant `batch_response_verifier::BATCH_STATISTICAL_SECURITY`. -/
def BATCH_STATISTICAL_SECURITY : Nat := 5

/-- The constant `batch_response_verifier::MIN_BATCH_SIZE`, that is
`BATCH_STATISTICAL_SECURITY + 1` evaluated in `size_t` of `w` bits. -/
def MIN_BATCH_SIZE (w : Nat) : Nat := size_t_add w BATCH_STATISTICAL_SECURITY 1

/-! ## The verifier classes -/

/-- A `std::shared_ptr<T>`: the address of the object it shares, together
with that object.  A `const std::shared_ptr<T>` cannot be made to point
elsewhere, so its `address` is fixed, while the object behind it is not
`const` and can still be written through the pointer. -/
structure shared_ptr (T : Type) where
  address : Nat
  pointee : T
deriving DecidableEq

/-- The class `base_response_verifier`, member by member.  The members
`_other_id` and `_aad` are `const` values and the three shared pointers are
`const` pointers.  The member `_algebra` is a pointer to a `const` context:
the context cannot be written through it, but the pointer itself is not
`const`, and it is represented by the context it currently points to.  The
last three members are owning pointers, represented by what they own. -/
structure base_response_verifier where
  _other_id : Nat
  _algebra : elliptic_curve256_algebra_ctx_t
  _aad : byte_vector_t
  _my_paillier : shared_ptr paillier_private_key_t
  _my_ring_pedersen : shared_ptr ring_pedersen_private_t
  _other_paillier : shared_ptr paillier_public_key_t
  _ctx : bignum_ctx
  _my_mont : bn_mont_ctx_st
  _other_mont : bn_mont_ctx_st
deriving DecidableEq

/-- What the `const` qualifiers of `base_response_verifier` fix: the two
`const` values and the addresses held by the three `const` shared
pointers. -/
structure base_const_members where
  _other_id : Nat
  _aad : byte_vector_t
  _my_paillier : Nat
  _my_ring_pedersen : Nat
  _other_paillier : Nat
deriving DecidableEq

/-- What a member function can write in a `base_response_verifier`: the
pointer `_algebra`, the objects behind the three shared pointers, and the
three owning pointers. -/
structure base_mutable_members where
  _algebra : elliptic_curve256_algebra_ctx_t
  _my_paillier : paillier_private_key_t
  _my_ring_pedersen : ring_pedersen_private_t
  _other_paillier : paillier_public_key_t
  _ctx : bignum_ctx
  _my_mont : bn_mont_ctx_st
  _other_mont : bn_mont_ctx_st
deriving DecidableEq

/-- The `const` part of a `base_response_verifier`. -/
def base_response_verifier.const_members (v : base_response_verifier) :
    base_const_members :=
  { _other_id := v._other_id
    _aad := v._aad
    _my_paillier := v._my_paillier.address
    _my_ring_pedersen := v._my_ring_pedersen.address
    _other_paillier := v._other_paillier.address }

/-- The object after a member function has written what it can write. -/
def base_response_verifier.write (v : base_response_verifier)
    (m : base_mutable_members) : base_response_verifier :=
  { _other_id := v._other_id
    _algebra := m._algebra
    _aad := v._aad
    _my_paillier := { address := v._my_paillier.address, pointee := m._my_paillier }
    _my_ring_pedersen :=
      { address := v._my_ring_pedersen.address, pointee := m._my_ring_pedersen }
    _other_paillier :=
      { address := v._other_paillier.address, pointee := m._other_paillier }
    _ctx := m._ctx
    _my_mont := m._my_mont
    _other_mont := m._other_mont }

/-- The private data members that `batch_response_verifier` adds: four
arrays of `BATCH_STATISTICAL_SECURITY` big numbers and two single ones,
each represented by the value of the big number. -/
structure batch_accumulators where
  _mta_ro : Fin BATCH_STATISTICAL_SECURITY → Nat
  _mta_B : Fin BATCH_STATISTICAL_SECURITY → Nat
  _commitment_ro : Fin BATCH_STATISTICAL_SECURITY → Nat
  _commitment_B : Fin BATCH_STATISTICAL_SECURITY → Nat
  _pedersen_t_exp : Nat
  _pedersen_B : Nat

/-- The class `batch_response_verifier`. -/
structure batch_response_verifier extends base_response_verifier, batch_accumulators

/-- The class `single_response_verifier`: it inherits the constructor and
adds no data member. -/
structure single_response_verifier extends base_response_verifier
deriving DecidableEq

/-- What a `std::unique_ptr<base_response_verifier>` can point to: an object
of one of the two concrete classes. -/
inductive response_verifier
  | batch (v : batch_response_verifier)
  | single (v : single_response_verifier)

/-- The dynamic type of a verifier. -/
inductive verifier_variant
  | batch
  | single
deriving DecidableEq

/-- The dynamic type of the object behind the pointer. -/
def response_verifier.variant : response_verifier → verifier_variant
  | .batch _ => .batch
  | .single _ => .single

/-- The base-class subobject. -/
def response_verifier.base : response_verifier → base_response_verifier
  | .batch v => v.tobase_response_verifier
  | .single v => v.tobase_response_verifier

/-! ## Construction -/

/-- Modelled from the spec: the constructor of `base_response_verifier` has
its body in `mta.cpp`, which is not part of the sources.  It binds the
verifier to one counterpart: each member takes the constructor argument of
its type, a shared pointer being copied as it is, and the verifier creates
the arithmetic contexts it owns, the Montgomery ones derived from the two
Paillier moduli. -/
def base_response_verifier.ctor (other_id : Nat)
    (algebra : elliptic_curve256_algebra_ctx_t) (aad : byte_vector_t)
    (my_key : shared_ptr paillier_private_key_t)
    (paillier : shared_ptr paillier_public_key_t)
    (ring_pedersen : shared_ptr ring_pedersen_private_t) : base_response_verifier :=
  { _other_id := other_id
    _algebra := algebra
    _aad := aad
    _my_paillier := my_key
    _my_ring_pedersen := ring_pedersen
    _other_paillier := paillier
    _ctx := { used := 0 }
    _my_mont := { modulus := my_key.pointee.pub.n2 }
    _other_mont := { modulus := paillier.pointee.n2 } }

/-- Modelled from the spec: the constructor of `batch_response_verifier` has
its body in `mta.cpp`, which is not part of the sources.  The spec says
that the accumulators are allocated at construction and does not say what
they hold then; here a running product starts at 1 and the running
exponent at 0.  Nothing that is proved below depends on these values. -/
def batch_response_verifier.ctor (other_id : Nat)
    (algebra : elliptic_curve256_algebra_ctx_t) (aad : byte_vector_t)
    (my_key : shared_ptr paillier_private_key_t)
    (paillier : shared_ptr paillier_public_key_t)
    (ring_pedersen : shared_ptr ring_pedersen_private_t) : batch_response_verifier :=
  { base_response_verifier.ctor other_id algebra aad my_key paillier ring_pedersen with
    _mta_ro := fun _ => 1
    _mta_B := fun _ => 1
    _commitment_ro := fun _ => 1
    _commitment_B := fun _ => 1
    _pedersen_t_exp := 0
    _pedersen_B := 1 }

/-- The constructor of `single_response_verifier`, inherited from the base
class (`using base_response_verifier::base_response_verifier`). -/
def single_response_verifier.ctor (other_id : Nat)
    (algebra : elliptic_curve256_algebra_ctx_t) (aad : byte_vector_t)
    (my_key : shared_ptr paillier_private_key_t)
    (paillier : shared_ptr paillier_public_key_t)
    (ring_pedersen : shared_ptr ring_pedersen_private_t) : single_response_verifier :=
  { base_response_verifier.ctor other_id algebra aad my_key paillier ring_pedersen with }

/-- The factory `new_response_verifier`.  The default argument of
`min_batch_threshold` is `MIN_BATCH_SIZE`; a caller that omits it is
`new_response_verifier_default`. -/
def new_response_verifier (num_of_blocks : Nat) (other_id : Nat)
    (algebra : elliptic_curve256_algebra_ctx_t) (aad : byte_vector_t)
    (my_key : shared_ptr paillier_private_key_t)
    (paillier : shared_ptr paillier_public_key_t)
    (ring_pedersen : shared_ptr ring_pedersen_private_t) (min_batch_threshold : Nat) :
    response_verifier :=
  if num_of_blocks ≥ min_batch_threshold then
    .batch (batch_response_verifier.ctor other_id algebra aad my_key paillier ring_pedersen)
  else
    .single (single_response_verifier.ctor other_id algebra aad my_key paillier ring_pedersen)

/-- A call of `new_response_verifier` that leaves `min_batch_threshold` to
its default, on a platform whose `size_t` has `w` bits. -/
def new_response_verifier_default (w : Nat) (num_of_blocks : Nat) (other_id : Nat)
    (algebra : elliptic_curve256_algebra_ctx_t) (aad : byte_vector_t)
    (my_key : shared_ptr paillier_private_key_t)
    (paillier : shared_ptr paillier_public_key_t)
    (ring_pedersen : shared_ptr ring_pedersen_private_t) : response_verifier :=
  new_response_verifier num_of_blocks other_id algebra aad my_key paillier ring_pedersen
    (MIN_BATCH_SIZE w)

/-! ## Member functions -/

/-- The arguments of one `process` call. -/
structure process_args where
  request : byte_vector_t
  response : cmp_mta_message
  public_point : elliptic_curve_point
deriving DecidableEq

/-- How a member function call ends: with an exception or normally, and
with the object in some state.  Here `self` is the object after the call. -/
structure call_outcome (V : Type) where
  error : Option cosigner_error
  self : V

/-- The member function `single_response_verifier::verify`, whose body in
the header is empty: it returns normally and touches nothing. -/
def single_response_verifier.verify (v : single_response_verifier) :
    call_outcome single_response_verifier :=
  { error := none, self := v }

/-- What a member function whose body is not in the header may do to a
`single_response_verifier`: it reads the whole object and the arguments,
it may throw, it may write the `response` argument (a non-`const`
reference), and in the object it may write the members and pointees of
`base_mutable_members`, nothing else. -/
structure single_effect where
  error : Option cosigner_error
  members : base_mutable_members
  response : cmp_mta_message

/-- The same for a `batch_response_verifier`, which can also write its
accumulators. -/
structure batch_effect where
  error : Option cosigner_error
  members : base_mutable_members
  accumulators : batch_accumulators
  response : cmp_mta_message

/-- The bodies that the header declares and `mta.cpp` defines: the two
`process` overrides and `batch_response_verifier::verify`.  They are
parameters of the embedding. -/
structure method_bodies where
  single_process : single_response_verifier → process_args → single_effect
  batch_process : batch_response_verifier → process_args → batch_effect
  batch_verify : batch_response_verifier → batch_effect

/-- The object after a member function has written what it can write. -/
def single_response_verifier.write (v : single_response_verifier)
    (m : base_mutable_members) : single_response_verifier :=
  { tobase_response_verifier := v.tobase_response_verifier.write m }

/-- The object after a member function has written what it can write. -/
def batch_response_verifier.write (v : batch_response_verifier)
    (m : base_mutable_members) (a : batch_accumulators) : batch_response_verifier :=
  { tobase_response_verifier := v.tobase_response_verifier.write m
    tobatch_accumulators := a }

/-- The virtual call `v->process(request, response, public_point)`. -/
def response_verifier.process (bodies : method_bodies) (v : response_verifier)
    (a : process_args) : call_outcome response_verifier :=
  match v with
  | .single s =>
    let e := bodies.single_process s a
    { error := e.error, self := .single (s.write e.members) }
  | .batch b =>
    let e := bodies.batch_process b a
    { error := e.error, self := .batch (b.write e.members e.accumulators) }

/-- The virtual call `v->verify()`. -/
def response_verifier.verify (bodies : method_bodies) (v : response_verifier) :
    call_outcome response_verifier :=
  match v with
  | .single s =>
    let o := s.verify
    { error := o.error, self := .single o.self }
  | .batch b =>
    let e := bodies.batch_verify b
    { error := e.error, self := .batch (b.write e.members e.accumulators) }

/-- One call made on a verifier through the base-class interface. -/
inductive verifier_call
  | process (a : process_args)
  | verify

/-- One call through the base-class interface. -/
def response_verifier.call (bodies : method_bodies) (v : response_verifier) :
    verifier_call → call_outcome response_verifier
  | .process a => v.process bodies a
  | .verify => v.verify bodies

/-- A caller that makes the calls of `calls` one after the other on the
same object, catching whatever a call throws: the object after the last
call, and what each call threw. -/
def response_verifier.run (bodies : method_bodies) :
    response_verifier → List verifier_call → response_verifier × List (Option cosigner_error)
  | v, [] => (v, [])
  | v, c :: cs =>
    let o := v.call bodies c
    let r := response_verifier.run bodies o.self cs
    (r.1, o.error :: r.2)

/-- Calling `single_response_verifier::verify` `k` times in a row, stopping
at the first exception. -/
def single_response_verifier.verify_times :
    Nat → single_response_verifier → call_outcome single_response_verifier
  | 0, v => { error := none, self := v }
  | k + 1, v =>
    let o := v.verify
    match o.error with
    | some e => { error := some e, self := o.self }
    | none => single_response_verifier.verify_times k o.self

/-- Modular exponentiation, the external arbitrary-precision primitive. -/
def mod_exp (base exponent modulus : Nat) : Nat := base ^ exponent % modulus

/-- The reading of the lifecycle "constructed, accumulating, finalized" as
a property of the `process` bodies: whatever the verifier and the
arguments, a `process` call that follows a `verify` call throws the
illegal-transition error. -/
def rejects_process_after_verify (bodies : method_bodies) : Prop :=
  ∀ (v : response_verifier) (a : process_args),
    ((v.verify bodies).self.process bodies a).error = some .illegal_transition

/-- Some `process` call on a `single_response_verifier` returns normally,
as a call on a correctly built proof does. -/
def single_process_can_succeed (bodies : method_bodies) : Prop :=
  ∃ (s : single_response_verifier) (a : process_args),
    ((response_verifier.single s).process bodies a).error = none

/-! ## The Paillier primitive -/

/-- Modelled from the spec: the Paillier primitive is an external
collaborator (`crypto/paillier/paillier.h`, not part of the sources).  A
key pair is valid when the modulus is the product of two distinct primes,
`n2` is its square, `lamda` is `(p - 1) * (q - 1)` and `mu` inverts `lamda`
modulo `n`. -/
def paillier_private_key_t.valid (key : paillier_private_key_t) : Prop :=
  Nat.Prime key.p ∧ Nat.Prime key.q ∧ key.p ≠ key.q ∧
  key.pub.n = key.p * key.q ∧ key.pub.n2 = key.pub.n * key.pub.n ∧
  key.lamda = (key.p - 1) * (key.q - 1) ∧ key.lamda * key.mu % key.pub.n = 1

/-- Modelled from the spec: Paillier encryption of `m` with randomness `r`
under a public key, with generator `n + 1`. -/
def paillier_encrypt (pub : paillier_public_key_t) (m r : Nat) : Nat :=
  mod_exp (pub.n + 1) m pub.n2 * mod_exp r pub.n pub.n2 % pub.n2

/-- Modelled from the spec: the homomorphic addition of two ciphertexts. -/
def paillier_add (pub : paillier_public_key_t) (c1 c2 : Nat) : Nat :=
  c1 * c2 % pub.n2

/-- Modelled from the spec: the homomorphic multiplication of a ciphertext
by a scalar. -/
def paillier_mul (pub : paillier_public_key_t) (c k : Nat) : Nat :=
  mod_exp c k pub.n2

/-- Modelled from the spec: a ciphertext is well formed under a public key
when it is a residue modulo `n2` that is invertible modulo `n`. -/
def paillier_well_formed (pub : paillier_public_key_t) (c : Nat) : Bool :=
  decide (c < pub.n2) && decide (Nat.gcd c pub.n = 1)

/-- Modelled from the spec: Paillier decryption with the private key; a
malformed ciphertext is a `decryption-error`. -/
def paillier_decrypt (key : paillier_private_key_t) (c : Nat) :
    Except cosigner_error Nat :=
  if paillier_well_formed key.pub c then
    .ok ((mod_exp c key.lamda key.pub.n2 - 1) / key.pub.n * key.mu % key.pub.n)
  else
    .error .decryption_error

/-! ## The MtA entry points -/

/-- Modelled from the spec: `cmp_player_info` is only forward declared in
the header.  It maps a party to its public key material; a pointer that is
not set is `none`. -/
structure cmp_player_info where
  paillier : Option paillier_public_key_t
  ring_pedersen : Option ring_pedersen_public_t
deriving DecidableEq

/-- Modelled from the spec: the generation of the proof objects is outside
the core; the provers are taken as given functions that return the
serialized proof. -/
structure zkp_provers where
  request_proof : Nat → Nat → Nat → byte_vector_t → byte_vector_t
  player_proof : Nat → ring_pedersen_public_t → Nat → Nat → byte_vector_t → byte_vector_t
  player_G_proof : Nat → ring_pedersen_public_t → Nat → Nat → byte_vector_t → byte_vector_t
  response_proof : ring_pedersen_public_t → Nat → Nat → Nat → byte_vector_t → byte_vector_t

/-- What `request` hands back: the returned message and the two output
maps, each a list of entries keyed by party id. -/
structure request_result where
  message : cmp_mta_message
  proofs : List (Nat × byte_vector_t)
  G_proofs : List (Nat × byte_vector_t)

/-- The Ring-Pedersen parameters of every other player of the directory,
or `none` when one of them has none. -/
def other_players_parameters (my_id : Nat) :
    List (Nat × cmp_player_info) → Option (List (Nat × ring_pedersen_public_t))
  | [] => some []
  | (id, info) :: rest =>
    if id = my_id then other_players_parameters my_id rest
    else
      match info.ring_pedersen, other_players_parameters my_id rest with
      | some rp, some done => some ((id, rp) :: done)
      | _, _ => none

/-- Modelled from the spec: `request`, declared in the header and defined
in `mta.cpp`, which is not part of the sources.  It encrypts the scalar `k`
under the given Paillier public key with the fresh randomness `r`, and
fills the two output maps with one proof per other player.  It fails with
`cryptographic-invariant-violation` when a scalar is out of range and with
`key-error` when a player has no public parameters. -/
def request (provers : zkp_provers) (r : Nat) (my_id : Nat)
    (algebra : elliptic_curve256_algebra_ctx_t)
    (k gamma a b : elliptic_curve_scalar) (aad : byte_vector_t)
    (paillier : paillier_public_key_t) (players : List (Nat × cmp_player_info)) :
    Except cosigner_error request_result :=
  if k < algebra.order ∧ gamma < algebra.order ∧ a < algebra.order ∧ b < algebra.order then
    match other_players_parameters my_id players with
    | none => .error .key_error
    | some others =>
      let ciphertext := paillier_encrypt paillier k r
      .ok
        { message :=
            { message := ciphertext
              proof := provers.request_proof my_id k ciphertext aad }
          proofs := others.map fun e =>
            (e.1, provers.player_proof my_id e.2 k a aad)
          G_proofs := others.map fun e =>
            (e.1, provers.player_G_proof my_id e.2 gamma b aad) }
  else
    .error .cryptographic_invariant_violation

/-- The integer that a big-endian byte string encodes. -/
def bytes_to_nat (bytes : byte_vector_t) : Nat :=
  bytes.foldl (fun acc byte => acc * 256 + byte.val) 0

/-- Modelled from the spec: the blinding scalar is sampled inside
`answer_mta_request`, and a sample that does not satisfy the range
constraint is dropped and a new one drawn.  The draws that the external
random generator delivers are `samples`, in order, and the range that the
protocol requires of the blinding term is `beta < beta_bound`, where
`beta_bound` is a protocol constant that the header does not contain.  The
result is the first draw in range, if there is one. -/
def sample_beta (beta_bound : Nat) (samples : List Nat) : Option Nat :=
  samples.find? fun beta => decide (beta < beta_bound)

/-- Modelled from the spec: `answer_mta_request`, declared in the header
and defined in `mta.cpp`, which is not part of the sources.  The secret
arrives as `secret_size` raw bytes.  The function samples the blinding
scalar `beta`, resampling until it is in range, computes
`secret * request_ciphertext + beta` homomorphically under the requester's
public key with encryption randomness `r`, and returns `-beta` modulo the
curve order together with the response message.  A malformed request
ciphertext is a `decryption-error`; when no draw satisfies the range
constraint the call fails with `range-violation`. -/
def answer_mta_request (provers : zkp_provers) (beta_bound : Nat) (samples : List Nat)
    (r : Nat) (algebra : elliptic_curve256_algebra_ctx_t) (request : cmp_mta_message)
    (secret : byte_vector_t) (aad : byte_vector_t)
    (my_key : paillier_private_key_t) (paillier : paillier_public_key_t)
    (ring_pedersen : ring_pedersen_public_t) :
    Except cosigner_error (elliptic_curve_scalar × cmp_mta_message) :=
  if paillier_well_formed paillier request.message then
    match sample_beta beta_bound samples with
    | none => .error .range_violation
    | some beta =>
      let y := bytes_to_nat secret
      let ciphertext :=
        paillier_add paillier (paillier_mul paillier request.message y)
          (paillier_encrypt paillier beta r)
      .ok ((algebra.order - beta % algebra.order) % algebra.order,
        { message := ciphertext
          proof := provers.response_proof ring_pedersen y beta ciphertext aad })
  else
    .error .decryption_error

/-- Modelled from the spec: `decrypt_mta_response`, declared in the header
and defined in `mta.cpp`, which is not part of the sources.  It decrypts
the response ciphertext with the requester's private key and reduces the
plaintext modulo the curve order; a malformed ciphertext is a
`decryption-error`. -/
def decrypt_mta_response (other_id : Nat) (algebra : elliptic_curve256_algebra_ctx_t)
    (response : Nat) (my_key : paillier_private_key_t) :
    Except cosigner_error elliptic_curve_scalar :=
  match paillier_decrypt my_key response with
  | .ok plain => .ok (plain % algebra.order)
  | .error e => .error e

/-! ## Selection of the variant -/

/-- The variant that the factory returns depends on the comparison only. -/
lemma variant_new_response_verifier (num_of_blocks other_id : Nat)
    (algebra : elliptic_curve256_algebra_ctx_t) (aad : byte_vector_t)
    (my_key : shared_ptr paillier_private_key_t) (paillier : shared_ptr paillier_public_key_t)
    (ring_pedersen : shared_ptr ring_pedersen_private_t) (min_batch_threshold : Nat) :
    (new_response_verifier num_of_blocks other_id algebra aad my_key paillier
      ring_pedersen min_batch_threshold).variant
      = if min_batch_threshold ≤ num_of_blocks then .batch else .single := by
  unfold new_response_verifier
  by_cases h : min_batch_threshold ≤ num_of_blocks
  · simp [h, response_verifier.variant]
  · simp [h, response_verifier.variant]

/-- On a `size_t` of at least three bits the sum `5 + 1` does not wrap. -/
lemma min_batch_size_eq (w : Nat) (hw : 3 ≤ w) : MIN_BATCH_SIZE w = 6 := by
  have h8 : 2 ^ 3 ≤ 2 ^ w := Nat.pow_le_pow_right (by norm_num) hw
  have h6 : 6 < 2 ^ w := by omega
  simp only [MIN_BATCH_SIZE, size_t_add, BATCH_STATISTICAL_SECURITY]
  exact Nat.mod_eq_of_lt h6

/-- Claim C1: for every `num_of_blocks` and every `min_batch_threshold` the
factory returns a `batch_response_verifier` exactly when
`num_of_blocks >= min_batch_threshold` and a `single_response_verifier`
exactly otherwise; with the default threshold it returns the single
variant for 5 blocks and the batch variant for 6 and for 7. -/
theorem new_response_verifier_threshold (w : Nat) (hw : 3 ≤ w)
    (num_of_blocks other_id : Nat)
    (algebra : elliptic_curve256_algebra_ctx_t) (aad : byte_vector_t)
    (my_key : shared_ptr paillier_private_key_t) (paillier : shared_ptr paillier_public_key_t)
    (ring_pedersen : shared_ptr ring_pedersen_private_t) (min_batch_threshold : Nat) :
    ((new_response_verifier num_of_blocks other_id algebra aad my_key paillier
        ring_pedersen min_batch_threshold).variant = .batch
      ↔ num_of_blocks ≥ min_batch_threshold)
    ∧ ((new_response_verifier num_of_blocks other_id algebra aad my_key paillier
        ring_pedersen min_batch_threshold).variant = .single
      ↔ ¬ num_of_blocks ≥ min_batch_threshold)
    ∧ (new_response_verifier_default w 5 other_id algebra aad my_key paillier
        ring_pedersen).variant = .single
    ∧ (new_response_verifier_default w 6 other_id algebra aad my_key paillier
        ring_pedersen).variant = .batch
    ∧ (new_response_verifier_default w 7 other_id algebra aad my_key paillier
        ring_pedersen).variant = .batch := by
  refine ⟨?_, ?_, ?_, ?_, ?_⟩
  · rw [variant_new_response_verifier]
    by_cases h : min_batch_threshold ≤ num_of_blocks <;> simp [h]
  · rw [variant_new_response_verifier]
    by_cases h : min_batch_threshold ≤ num_of_blocks <;> simp [h]
  · simp [new_response_verifier_default, variant_new_response_verifier, min_batch_size_eq w hw]
  · simp [new_response_verifier_default, variant_new_response_verifier, min_batch_size_eq w hw]
  · simp [new_response_verifier_default, variant_new_response_verifier, min_batch_size_eq w hw]

/-- Witness of claim C1: a 64-bit `size_t`, four blocks and threshold
four. -/
theorem new_response_verifier_threshold_witness :
    3 ≤ 64 ∧
    ((new_response_verifier 4 1 ⟨7⟩ [] ⟨4096, ⟨⟨15, 225⟩, 3, 5, 8, 2⟩⟩ ⟨8192, ⟨15, 225⟩⟩
        ⟨12288, ⟨⟨35, 2, 4⟩, 3, 24⟩⟩ 4).variant = .batch ↔ 4 ≥ 4)
    ∧ (new_response_verifier_default 64 5 1 ⟨7⟩ [] ⟨4096, ⟨⟨15, 225⟩, 3, 5, 8, 2⟩⟩ ⟨8192, ⟨15, 225⟩⟩
        ⟨12288, ⟨⟨35, 2, 4⟩, 3, 24⟩⟩).variant = .single :=
  ⟨by decide,
   (new_response_verifier_threshold 64 (by decide) 4 1 ⟨7⟩ [] ⟨4096, ⟨⟨15, 225⟩, 3, 5, 8, 2⟩⟩
      ⟨8192, ⟨15, 225⟩⟩ ⟨12288, ⟨⟨35, 2, 4⟩, 3, 24⟩⟩ 4).1,
   (new_response_verifier_threshold 64 (by decide) 4 1 ⟨7⟩ [] ⟨4096, ⟨⟨15, 225⟩, 3, 5, 8, 2⟩⟩
      ⟨8192, ⟨15, 225⟩⟩ ⟨12288, ⟨⟨35, 2, 4⟩, 3, 24⟩⟩ 4).2.2.1⟩

/-- Claim C2, evaluated on the code: a session of three blocks holds six
MtA instances, which reaches the default threshold of six, and yet the
factory returns the single variant, for three, four and five blocks. -/
theorem new_response_verifier_compares_blocks (other_id : Nat)
    (algebra : elliptic_curve256_algebra_ctx_t) (aad : byte_vector_t)
    (my_key : shared_ptr paillier_private_key_t) (paillier : shared_ptr paillier_public_key_t)
    (ring_pedersen : shared_ptr ring_pedersen_private_t) :
    2 * 3 ≥ MIN_BATCH_SIZE 64
    ∧ (new_response_verifier_default 64 3 other_id algebra aad my_key paillier
        ring_pedersen).variant = .single
    ∧ (new_response_verifier_default 64 4 other_id algebra aad my_key paillier
        ring_pedersen).variant = .single
    ∧ (new_response_verifier_default 64 5 other_id algebra aad my_key paillier
        ring_pedersen).variant = .single := by
  have h : MIN_BATCH_SIZE 64 = 6 := min_batch_size_eq 64 (by decide)
  refine ⟨by omega, ?_, ?_, ?_⟩ <;>
    simp [new_response_verifier_default, variant_new_response_verifier, h]

/-- Claim C7: `BATCH_STATISTICAL_SECURITY` is 5, `MIN_BATCH_SIZE` is
`BATCH_STATISTICAL_SECURITY + 1 = 6` and the `size_t` sum does not wrap, so
the default threshold of the factory is 6. -/
theorem batching_constants (w : Nat) (hw : 3 ≤ w) :
    BATCH_STATISTICAL_SECURITY = 5
    ∧ MIN_BATCH_SIZE w = BATCH_STATISTICAL_SECURITY + 1
    ∧ MIN_BATCH_SIZE w = 6
    ∧ BATCH_STATISTICAL_SECURITY + 1 < 2 ^ w
    ∧ ∀ (num_of_blocks other_id : Nat) (algebra : elliptic_curve256_algebra_ctx_t)
        (aad : byte_vector_t) (my_key : shared_ptr paillier_private_key_t)
        (paillier : shared_ptr paillier_public_key_t) (ring_pedersen : shared_ptr ring_pedersen_private_t),
        new_response_verifier_default w num_of_blocks other_id algebra aad my_key paillier
            ring_pedersen
          = new_response_verifier num_of_blocks other_id algebra aad my_key paillier
            ring_pedersen 6 := by
  have h6 := min_batch_size_eq w hw
  have h8 : 2 ^ 3 ≤ 2 ^ w := Nat.pow_le_pow_right (by norm_num) hw
  refine ⟨rfl, ?_, h6, ?_, ?_⟩
  · rw [h6]; rfl
  · simp only [BATCH_STATISTICAL_SECURITY]; omega
  · intro n id alg aad k pk rp
    simp [new_response_verifier_default, h6]

/-- Witness of claim C7: a 64-bit `size_t`. -/
theorem batching_constants_witness :
    3 ≤ 64 ∧ MIN_BATCH_SIZE 64 = 6 :=
  ⟨by decide, (batching_constants 64 (by decide)).2.2.1⟩

/-- Claim C9: the variant that the factory returns is a function of
`num_of_blocks` and `min_batch_threshold` alone; the other six arguments
do not influence it. -/
theorem variant_independent_of_keys (num_of_blocks min_batch_threshold : Nat)
    (other_id other_id' : Nat) (algebra algebra' : elliptic_curve256_algebra_ctx_t)
    (aad aad' : byte_vector_t) (my_key my_key' : shared_ptr paillier_private_key_t)
    (paillier paillier' : shared_ptr paillier_public_key_t)
    (ring_pedersen ring_pedersen' : shared_ptr ring_pedersen_private_t) :
    (new_response_verifier num_of_blocks other_id algebra aad my_key paillier ring_pedersen
        min_batch_threshold).variant
      = (new_response_verifier num_of_blocks other_id' algebra' aad' my_key' paillier'
        ring_pedersen' min_batch_threshold).variant := by
  rw [variant_new_response_verifier, variant_new_response_verifier]

/-- Claim C10: selection is monotone.  When the factory returns the batch
variant for `n` blocks and threshold `t`, it returns the batch variant for
every `n' >= n` and `t' <= t`, whatever the other arguments; and with
threshold 0 it returns the batch variant for every number of blocks. -/
theorem selection_monotone (n t n' t' : Nat)
    (other_id other_id' : Nat) (algebra algebra' : elliptic_curve256_algebra_ctx_t)
    (aad aad' : byte_vector_t) (my_key my_key' : shared_ptr paillier_private_key_t)
    (paillier paillier' : shared_ptr paillier_public_key_t)
    (ring_pedersen ring_pedersen' : shared_ptr ring_pedersen_private_t)
    (hbatch : (new_response_verifier n other_id algebra aad my_key paillier ring_pedersen
        t).variant = .batch)
    (hn : n' ≥ n) (ht : t' ≤ t) :
    (new_response_verifier n' other_id' algebra' aad' my_key' paillier' ring_pedersen'
        t').variant = .batch
    ∧ ∀ m : Nat, (new_response_verifier m other_id' algebra' aad' my_key' paillier'
        ring_pedersen' 0).variant = .batch := by
  rw [variant_new_response_verifier] at hbatch
  have htn : t ≤ n := by
    by_contra hlt
    simp [hlt] at hbatch
  constructor
  · rw [variant_new_response_verifier]
    have : t' ≤ n' := by omega
    simp [this]
  · intro m
    rw [variant_new_response_verifier]
    simp

/-- Witness of claim C10: batch at six blocks with threshold six, hence at
seven blocks with threshold five. -/
theorem selection_monotone_witness :
    (new_response_verifier 6 1 ⟨7⟩ [] ⟨4096, ⟨⟨15, 225⟩, 3, 5, 8, 2⟩⟩ ⟨8192, ⟨15, 225⟩⟩
        ⟨12288, ⟨⟨35, 2, 4⟩, 3, 24⟩⟩ 6).variant = .batch
    ∧ 7 ≥ 6 ∧ 5 ≤ 6
    ∧ (new_response_verifier 7 2 ⟨11⟩ [0] ⟨4096, ⟨⟨15, 225⟩, 3, 5, 8, 2⟩⟩ ⟨8448, ⟨21, 441⟩⟩
        ⟨12288, ⟨⟨35, 2, 4⟩, 3, 24⟩⟩ 5).variant = .batch :=
  ⟨by decide, by decide, by decide,
   (selection_monotone 6 6 7 5 1 2 ⟨7⟩ ⟨11⟩ [] [0] ⟨4096, ⟨⟨15, 225⟩, 3, 5, 8, 2⟩⟩
      ⟨4096, ⟨⟨15, 225⟩, 3, 5, 8, 2⟩⟩ ⟨8192, ⟨15, 225⟩⟩ ⟨8448, ⟨21, 441⟩⟩ ⟨12288, ⟨⟨35, 2, 4⟩, 3, 24⟩⟩ ⟨12288, ⟨⟨35, 2, 4⟩, 3, 24⟩⟩
      (by decide) (by decide) (by decide)).1⟩

/-! ## The verifier life cycle -/

/-- Writing what a member function can write leaves the `const` part. -/
lemma base_write_const (v : base_response_verifier) (m : base_mutable_members) :
    (v.write m).const_members = v.const_members := rfl

/-- No call changes the `const` part or the dynamic type. -/
lemma call_const (bodies : method_bodies) (v : response_verifier) (c : verifier_call) :
    (v.call bodies c).self.base.const_members = v.base.const_members
    ∧ (v.call bodies c).self.variant = v.variant := by
  cases c <;> cases v <;>
    simp [response_verifier.call, response_verifier.process, response_verifier.verify,
      response_verifier.base, response_verifier.variant, single_response_verifier.verify,
      single_response_verifier.write, batch_response_verifier.write, base_write_const]

/-- No sequence of calls changes the `const` part or the dynamic type. -/
lemma run_const (bodies : method_bodies) (calls : List verifier_call) :
    ∀ v : response_verifier,
      (v.run bodies calls).1.base.const_members = v.base.const_members
      ∧ (v.run bodies calls).1.variant = v.variant := by
  induction calls with
  | nil => intro v; exact ⟨rfl, rfl⟩
  | cons c cs ih =>
    intro v
    have h1 := call_const bodies v c
    have h2 := ih (v.call bodies c).self
    simp only [response_verifier.run]
    exact ⟨h2.1.trans h1.1, h2.2.trans h1.2⟩

/-- The base-class subobject right after construction by the factory. -/
lemma new_response_verifier_base (num_of_blocks other_id : Nat)
    (algebra : elliptic_curve256_algebra_ctx_t) (aad : byte_vector_t)
    (my_key : shared_ptr paillier_private_key_t)
    (paillier : shared_ptr paillier_public_key_t)
    (ring_pedersen : shared_ptr ring_pedersen_private_t) (min_batch_threshold : Nat) :
    (new_response_verifier num_of_blocks other_id algebra aad my_key paillier
      ring_pedersen min_batch_threshold).base
      = base_response_verifier.ctor other_id algebra aad my_key paillier ring_pedersen := by
  unfold new_response_verifier
  by_cases h : min_batch_threshold ≤ num_of_blocks <;>
    simp [h, response_verifier.base, batch_response_verifier.ctor,
      single_response_verifier.ctor]

/-- Claim C3: `single_response_verifier::verify` is a no-op.  On every
verifier state it returns normally and hands back the very same object, so
any number of consecutive calls returns normally and leaves every member
as it was. -/
theorem single_verify_noop (v : single_response_verifier) (k : Nat) :
    v.verify.error = none ∧ v.verify.self = v
    ∧ (single_response_verifier.verify_times k v).error = none
    ∧ (single_response_verifier.verify_times k v).self = v := by
  refine ⟨rfl, rfl, ?_, ?_⟩
  · induction k with
    | zero => rfl
    | succ k ih => simpa [single_response_verifier.verify_times,
        single_response_verifier.verify] using ih
  · induction k with
    | zero => rfl
    | succ k ih => simpa [single_response_verifier.verify_times,
        single_response_verifier.verify] using ih

/-- Claim C5 as stated fails.  No implementation of `process` that ever
accepts a proof on a `single_response_verifier` can reject every `process`
call that follows `verify`, because `single_response_verifier::verify`
leaves no trace in the object; and on the single verifier that the factory
builds for one block, a `process` call after `verify` ends as the first
`process` call on the fresh verifier does. -/
theorem process_after_verify_not_rejected :
    (¬ ∃ bodies : method_bodies,
      single_process_can_succeed bodies ∧ rejects_process_after_verify bodies)
    ∧ (new_response_verifier_default 64 1 2 ⟨7⟩ [] ⟨4096, ⟨⟨143, 20449⟩, 11, 13, 120, 87⟩⟩
        ⟨8192, ⟨15, 225⟩⟩ ⟨12288, ⟨⟨35, 2, 4⟩, 3, 24⟩⟩).variant = .single
    ∧ ∀ (bodies : method_bodies) (a : process_args),
        (((new_response_verifier_default 64 1 2 ⟨7⟩ [] ⟨4096, ⟨⟨143, 20449⟩, 11, 13, 120, 87⟩⟩
          ⟨8192, ⟨15, 225⟩⟩ ⟨12288, ⟨⟨35, 2, 4⟩, 3, 24⟩⟩).verify bodies).self.process bodies a).error
        = ((new_response_verifier_default 64 1 2 ⟨7⟩ [] ⟨4096, ⟨⟨143, 20449⟩, 11, 13, 120, 87⟩⟩
          ⟨8192, ⟨15, 225⟩⟩ ⟨12288, ⟨⟨35, 2, 4⟩, 3, 24⟩⟩).process bodies a).error := by
  refine ⟨?_, by decide, ?_⟩
  · rintro ⟨bodies, ⟨s, a, hok⟩, hrej⟩
    have h := hrej (.single s) a
    simp only [response_verifier.verify, single_response_verifier.verify] at h
    rw [hok] at h
    exact absurd h (by simp)
  · intro bodies a
    rfl

/-- Claim C5 as amended: on a `single_response_verifier` a `verify` call
returns normally and leaves the object as it was, so a `process` call made
after `verify` ends exactly as the same call made without it, and so does
every further sequence of calls. -/
theorem process_after_verify_same (bodies : method_bodies)
    (s : single_response_verifier) (a : process_args) (calls : List verifier_call) :
    ((response_verifier.single s).verify bodies).error = none
    ∧ ((response_verifier.single s).verify bodies).self = .single s
    ∧ (((response_verifier.single s).verify bodies).self.process bodies a).error
        = ((response_verifier.single s).process bodies a).error
    ∧ (((response_verifier.single s).verify bodies).self.process bodies a).self
        = ((response_verifier.single s).process bodies a).self
    ∧ (response_verifier.single s).run bodies (.verify :: calls)
        = (((response_verifier.single s).run bodies calls).1,
           none :: ((response_verifier.single s).run bodies calls).2) := by
  refine ⟨rfl, rfl, rfl, rfl, ?_⟩
  simp [response_verifier.run, response_verifier.call, response_verifier.verify,
    single_response_verifier.verify]

/-- Claim C8: the verifier that the factory returns holds the `other_id`,
the `aad` and the three key pointers it was given, in the batch branch and
in the single branch; and after any sequence of `process` and `verify`
calls, whatever those calls write and throw, it still holds that
`other_id`, that `aad` and pointers to the same three key objects. -/
theorem counterpart_fixed (bodies : method_bodies) (calls : List verifier_call)
    (num_of_blocks other_id : Nat)
    (algebra : elliptic_curve256_algebra_ctx_t) (aad : byte_vector_t)
    (my_key : shared_ptr paillier_private_key_t)
    (paillier : shared_ptr paillier_public_key_t)
    (ring_pedersen : shared_ptr ring_pedersen_private_t) (min_batch_threshold : Nat) :
    ((new_response_verifier num_of_blocks other_id algebra aad my_key paillier
        ring_pedersen min_batch_threshold).base._other_id = other_id
      ∧ (new_response_verifier num_of_blocks other_id algebra aad my_key paillier
        ring_pedersen min_batch_threshold).base._aad = aad
      ∧ (new_response_verifier num_of_blocks other_id algebra aad my_key paillier
        ring_pedersen min_batch_threshold).base._my_paillier = my_key
      ∧ (new_response_verifier num_of_blocks other_id algebra aad my_key paillier
        ring_pedersen min_batch_threshold).base._other_paillier = paillier
      ∧ (new_response_verifier num_of_blocks other_id algebra aad my_key paillier
        ring_pedersen min_batch_threshold).base._my_ring_pedersen = ring_pedersen)
    ∧ (batch_response_verifier.ctor other_id algebra aad my_key paillier
        ring_pedersen)._other_id = other_id
    ∧ (single_response_verifier.ctor other_id algebra aad my_key paillier
        ring_pedersen)._other_id = other_id
    ∧ ((new_response_verifier num_of_blocks other_id algebra aad my_key paillier
        ring_pedersen min_batch_threshold).run bodies calls).1.base._other_id = other_id
    ∧ ((new_response_verifier num_of_blocks other_id algebra aad my_key paillier
        ring_pedersen min_batch_threshold).run bodies calls).1.base._aad = aad
    ∧ ((new_response_verifier num_of_blocks other_id algebra aad my_key paillier
        ring_pedersen min_batch_threshold).run bodies calls).1.base._my_paillier.address
          = my_key.address
    ∧ ((new_response_verifier num_of_blocks other_id algebra aad my_key paillier
        ring_pedersen min_batch_threshold).run bodies calls).1.base._other_paillier.address
          = paillier.address
    ∧ ((new_response_verifier num_of_blocks other_id algebra aad my_key paillier
        ring_pedersen min_batch_threshold).run bodies calls).1.base._my_ring_pedersen.address
          = ring_pedersen.address := by
  have h0 := new_response_verifier_base num_of_blocks other_id algebra aad my_key paillier
    ring_pedersen min_batch_threshold
  have h1 := (run_const bodies calls (new_response_verifier num_of_blocks other_id algebra aad
    my_key paillier ring_pedersen min_batch_threshold)).1
  rw [h0] at h1
  refine ⟨?_, rfl, rfl, ?_, ?_, ?_, ?_, ?_⟩
  · rw [h0]
    exact ⟨rfl, rfl, rfl, rfl, rfl⟩
  · exact congrArg base_const_members._other_id h1
  · exact congrArg base_const_members._aad h1
  · exact congrArg base_const_members._my_paillier h1
  · exact congrArg base_const_members._other_paillier h1
  · exact congrArg base_const_members._my_ring_pedersen h1

/-- The `const` qualifiers protect nothing else: a `process` body can
replace the context behind `_algebra` and rewrite the key behind
`_my_paillier`, and the verifier then holds the new ones. -/
lemma algebra_and_pointees_not_fixed :
    ∃ (bodies : method_bodies) (a : process_args),
      ((new_response_verifier 1 2 ⟨7⟩ [] ⟨4096, ⟨⟨143, 20449⟩, 11, 13, 120, 87⟩⟩
          ⟨8192, ⟨15, 225⟩⟩ ⟨12288, ⟨⟨35, 2, 4⟩, 3, 24⟩⟩ 6).process bodies a).self.base._algebra
        ≠ ⟨7⟩
      ∧ (((new_response_verifier 1 2 ⟨7⟩ [] ⟨4096, ⟨⟨143, 20449⟩, 11, 13, 120, 87⟩⟩
          ⟨8192, ⟨15, 225⟩⟩ ⟨12288, ⟨⟨35, 2, 4⟩, 3, 24⟩⟩ 6).process bodies
            a).self.base._my_paillier.pointee
        ≠ ⟨⟨143, 20449⟩, 11, 13, 120, 87⟩) := by
  refine ⟨
    { single_process := fun _ a =>
        ⟨none, ⟨⟨11⟩, ⟨⟨15, 225⟩, 3, 5, 8, 2⟩, ⟨⟨35, 2, 4⟩, 3, 24⟩, ⟨15, 225⟩, ⟨0⟩, ⟨1⟩, ⟨1⟩⟩,
          a.response⟩
      batch_process := fun v a =>
        ⟨none, ⟨v._algebra, v._my_paillier.pointee, v._my_ring_pedersen.pointee,
          v._other_paillier.pointee, v._ctx, v._my_mont, v._other_mont⟩,
          v.tobatch_accumulators, a.response⟩
      batch_verify := fun v =>
        ⟨none, ⟨v._algebra, v._my_paillier.pointee, v._my_ring_pedersen.pointee,
          v._other_paillier.pointee, v._ctx, v._my_mont, v._other_mont⟩,
          v.tobatch_accumulators, ⟨0, []⟩⟩ },
    ⟨[], ⟨0, []⟩, ⟨[]⟩⟩, ?_, ?_⟩
  · decide
  · decide

/-! ## The MtA round trip -/

/-- The generator `n + 1` raised to `k` is `1 + k * n` modulo `n * n`. -/
lemma one_add_pow_modEq (n k : Nat) : (n + 1) ^ k ≡ 1 + k * n [MOD n * n] := by
  induction k with
  | zero => simp [Nat.ModEq]
  | succ k ih =>
    have h1 : (n + 1) ^ (k + 1) ≡ (1 + k * n) * (n + 1) [MOD n * n] := by
      rw [pow_succ]
      exact ih.mul_right _
    have h2 : (1 + k * n) * (n + 1) = 1 + (k + 1) * n + k * (n * n) := by ring
    rw [h2] at h1
    refine h1.trans ?_
    have h3 : k * (n * n) ≡ 0 [MOD n * n] :=
      (Nat.modEq_zero_iff_dvd).2 (Dvd.intro_left k rfl)
    simpa using (Nat.ModEq.refl (1 + (k + 1) * n)).add h3

/-- Euler's totient of the square of a product of two distinct primes. -/
lemma totient_sq_of_primes (p q : Nat) (hp : p.Prime) (hq : q.Prime) (hpq : p ≠ q) :
    Nat.totient ((p * q) * (p * q)) = (p * q) * ((p - 1) * (q - 1)) := by
  have hcop : Nat.Coprime (p ^ 2) (q ^ 2) :=
    Nat.Coprime.pow 2 2 ((Nat.coprime_primes hp hq).2 hpq)
  have h : (p * q) * (p * q) = p ^ 2 * q ^ 2 := by ring
  rw [h, Nat.totient_mul hcop, Nat.totient_prime_pow hp (by norm_num),
    Nat.totient_prime_pow hq (by norm_num)]
  simp only [Nat.add_one_sub_one, pow_one]
  ring

/-- A unit modulo `n = p * q` raised to `n * lamda` is 1 modulo `n * n`. -/
lemma pow_mul_lamda_modEq_one (p q r : Nat) (hp : p.Prime) (hq : q.Prime) (hpq : p ≠ q)
    (hr : Nat.Coprime r (p * q)) :
    r ^ ((p * q) * ((p - 1) * (q - 1))) ≡ 1 [MOD (p * q) * (p * q)] := by
  rw [← totient_sq_of_primes p q hp hq hpq]
  exact Nat.ModEq.pow_totient (Nat.Coprime.mul_right hr hr)

/-- The residue of `1 + k * n` modulo `n * n`. -/
lemma one_add_mul_mod_sq (n k : Nat) (hn : 1 < n) :
    (1 + k * n) % (n * n) = 1 + (k % n) * n := by
  have hk : k = n * (k / n) + k % n := (Nat.div_add_mod k n).symm
  have hlt : k % n < n := Nat.mod_lt _ (by omega)
  have hsmall : 1 + (k % n) * n < n * n := by
    have h1 : (k % n) * n + n ≤ n * n := by
      have : (k % n + 1) * n ≤ n * n := Nat.mul_le_mul_right n hlt
      calc (k % n) * n + n = (k % n + 1) * n := by ring
        _ ≤ n * n := this
    omega
  have hsplit : 1 + k * n = 1 + (k % n) * n + (n * n) * (k / n) := by
    conv_lhs => rw [hk]
    ring
  rw [hsplit, Nat.add_mul_mod_self_left, Nat.mod_eq_of_lt hsmall]

/-- The decryption formula recovers the plaintext of a ciphertext that is
congruent to `(n + 1) ^ m * R ^ n`. -/
lemma decryption_formula (n lamda mu c m R : Nat) (hn : 1 < n)
    (hmu : lamda * mu % n = 1)
    (hR : R ^ (n * lamda) ≡ 1 [MOD n * n])
    (hc : c ≡ (n + 1) ^ m * R ^ n [MOD n * n]) :
    (c ^ lamda % (n * n) - 1) / n * mu % n = m % n := by
  have h1 : c ^ lamda ≡ ((n + 1) ^ m * R ^ n) ^ lamda [MOD n * n] := hc.pow lamda
  have h2 : ((n + 1) ^ m * R ^ n) ^ lamda = (n + 1) ^ (m * lamda) * R ^ (n * lamda) := by
    rw [mul_pow, ← pow_mul, ← pow_mul]
  have h3 : (n + 1) ^ (m * lamda) * R ^ (n * lamda) ≡ (1 + (m * lamda) * n) * 1 [MOD n * n] :=
    (one_add_pow_modEq n (m * lamda)).mul hR
  have h4 : c ^ lamda % (n * n) = 1 + ((m * lamda) % n) * n := by
    rw [← one_add_mul_mod_sq n (m * lamda) hn]
    have := (h1.trans (h2 ▸ h3))
    simpa [Nat.ModEq] using this
  rw [h4, Nat.add_sub_cancel_left, Nat.mul_div_cancel _ (by omega : 0 < n), Nat.mod_mul_mod]
  have h5 : m * lamda * mu = m * (lamda * mu) := by ring
  rw [h5, Nat.mul_mod, hmu, Nat.mul_one, Nat.mod_mod]

/-- Reduction modulo `n * n` keeps a number coprime to `n`. -/
lemma coprime_mod_sq (X n : Nat) (h : Nat.Coprime X n) : Nat.Coprime (X % (n * n)) n := by
  have h1 : (X % (n * n)) % n = X % n := Nat.mod_mul_left_mod X n n
  unfold Nat.Coprime at *
  rw [Nat.gcd_comm, Nat.gcd_rec, Nat.gcd_comm] at h ⊢
  rw [h1]
  exact h

/-- A Paillier ciphertext built from a unit is well formed. -/
lemma well_formed_of_coprime (pub : paillier_public_key_t) (X : Nat) (hn : 1 < pub.n)
    (hn2 : pub.n2 = pub.n * pub.n) (h : Nat.Coprime X pub.n) :
    paillier_well_formed pub (X % pub.n2) = true := by
  have hpos : 0 < pub.n * pub.n := Nat.mul_pos (by omega) (by omega)
  have hc := coprime_mod_sq X pub.n h
  unfold Nat.Coprime at hc
  simp [paillier_well_formed, hn2, Nat.mod_lt _ hpos, hc]

/-- The encryption of `m` with a unit `r` is a product of units. -/
lemma encrypt_coprime (n m r : Nat) (hr : Nat.Coprime r n) :
    Nat.Coprime ((n + 1) ^ m % (n * n) * (r ^ n % (n * n))) n := by
  have hg : Nat.Coprime (n + 1) n := by simp
  exact Nat.Coprime.mul (coprime_mod_sq _ _ (Nat.Coprime.pow_left m hg))
    (coprime_mod_sq _ _ (Nat.Coprime.pow_left n hr))

/-- The sum of the two shares. -/
lemma shares_add (o v beta : Nat) (ho : 0 < o) :
    ((v + beta) % o + (o - beta % o) % o) % o = v % o := by
  have hlt : beta % o < o := Nat.mod_lt _ ho
  have hb : beta = o * (beta / o) + beta % o := (Nat.div_add_mod beta o).symm
  have h1 : (v + beta) % o + (o - beta % o) % o ≡ (v + beta) + (o - beta % o) [MOD o] :=
    (Nat.mod_modEq _ _).add (Nat.mod_modEq _ _)
  have h2 : (v + beta) + (o - beta % o) = v + o * (beta / o + 1) := by
    have : beta % o + (o - beta % o) = o := by omega
    calc (v + beta) + (o - beta % o)
        = v + (o * (beta / o) + beta % o) + (o - beta % o) := by rw [← hb]
      _ = v + o * (beta / o) + (beta % o + (o - beta % o)) := by ring
      _ = v + o * (beta / o) + o := by rw [this]
      _ = v + o * (beta / o + 1) := by ring
  rw [h2] at h1
  have h3 : v + o * (beta / o + 1) ≡ v [MOD o] := by
    simp [Nat.ModEq]
  exact h1.trans h3

/-- Claim C6 as stated fails: with the valid key pair of the primes 11 and
13, curve order 17 and the valid scalars `x = y = 16`, the three calls
succeed with blinding scalar 0 and return the shares 11 and 0, while
`16 * 16 = 256` is 1 modulo 17.  The product exceeds the Paillier modulus
143 and is decrypted modulo it. -/
theorem mta_round_trip_wraps :
    paillier_private_key_t.valid ⟨⟨143, 20449⟩, 11, 13, 120, 87⟩
    ∧ 16 < 17 ∧ bytes_to_nat [16] = 16
    ∧ request ⟨fun _ _ _ _ => [], fun _ _ _ _ _ => [], fun _ _ _ _ _ => [],
          fun _ _ _ _ _ => []⟩ 2 1 ⟨17⟩ 16 1 2 3 [] ⟨143, 20449⟩ []
        = .ok ⟨⟨3660, []⟩, [], []⟩
    ∧ answer_mta_request ⟨fun _ _ _ _ => [], fun _ _ _ _ _ => [], fun _ _ _ _ _ => [],
          fun _ _ _ _ _ => []⟩ 1 [0] 3 ⟨17⟩ ⟨3660, []⟩ [16] []
          ⟨⟨15, 225⟩, 3, 5, 8, 2⟩ ⟨143, 20449⟩ ⟨35, 2, 4⟩
        = .ok (0, ⟨17527, []⟩)
    ∧ decrypt_mta_response 2 ⟨17⟩ 17527 ⟨⟨143, 20449⟩, 11, 13, 120, 87⟩ = .ok 11
    ∧ (11 + 0) % 17 ≠ 16 * 16 % 17 := by
  refine ⟨⟨by norm_num, by norm_num, by decide, rfl, rfl, rfl, by decide⟩, by decide,
    by decide, ?_, ?_, ?_, by decide⟩
  · rfl
  · rfl
  · rfl

/-- Claim C6 as amended: the MtA round trip.  For scalars below the curve
order, a valid Paillier key pair of the requester whose modulus is at
least `(order - 1) * (order - 1) + beta_bound`, encryption randomness
invertible modulo `n`, a random source that delivers a blinding scalar in
range, and a player directory in which every other player has parameters,
the three calls succeed and the share that `decrypt_mta_response` returns
plus the share that `answer_mta_request` returns is `x * y` modulo the
curve order. -/
theorem mta_round_trip (provers : zkp_provers) (beta_bound : Nat) (samples : List Nat)
    (r_request r_response : Nat)
    (my_id other_id : Nat) (algebra : elliptic_curve256_algebra_ctx_t)
    (x gamma a b : elliptic_curve_scalar) (secret : byte_vector_t) (aad : byte_vector_t)
    (requester_key responder_key : paillier_private_key_t)
    (requester_ring_pedersen : ring_pedersen_public_t)
    (players : List (Nat × cmp_player_info))
    (hkey : requester_key.valid)
    (hsize : (algebra.order - 1) * (algebra.order - 1) + beta_bound ≤ requester_key.pub.n)
    (hx : x < algebra.order) (hy : bytes_to_nat secret < algebra.order)
    (hgamma : gamma < algebra.order) (ha : a < algebra.order) (hb : b < algebra.order)
    (hplayers : other_players_parameters my_id players ≠ none)
    (hr1 : Nat.Coprime r_request requester_key.pub.n)
    (hr2 : Nat.Coprime r_response requester_key.pub.n)
    (hsample : ∃ beta ∈ samples, beta < beta_bound) :
    ∃ (sent : request_result) (response : cmp_mta_message)
      (share_requester share_responder : elliptic_curve_scalar),
      request provers r_request my_id algebra x gamma a b aad requester_key.pub players
        = .ok sent
      ∧ answer_mta_request provers beta_bound samples r_response algebra sent.message secret
          aad responder_key requester_key.pub requester_ring_pedersen
        = .ok (share_responder, response)
      ∧ decrypt_mta_response other_id algebra response.message requester_key
        = .ok share_requester
      ∧ (share_requester + share_responder) % algebra.order
        = x * bytes_to_nat secret % algebra.order := by
  obtain ⟨hp, hq, hpq, hn, hn2, hlam, hmu⟩ := hkey
  have hn1 : 1 < requester_key.pub.n := by
    rw [hn]
    have h2p := hp.two_le
    have h2q := hq.two_le
    nlinarith
  have ho : 0 < algebra.order := by omega
  obtain ⟨beta, hfind⟩ : ∃ beta, sample_beta beta_bound samples = some beta := by
    cases hnone : sample_beta beta_bound samples with
    | some beta => exact ⟨beta, rfl⟩
    | none =>
      exfalso
      obtain ⟨b0, hmem, hlt⟩ := hsample
      have := List.find?_eq_none.1 hnone b0 hmem
      simp [hlt] at this
  have hbeta : beta < beta_bound := by
    have := List.find?_some hfind
    simpa using this
  have hrange : x * bytes_to_nat secret + beta < requester_key.pub.n := by
    have hx1 : x ≤ algebra.order - 1 := Nat.le_sub_one_of_lt hx
    have hy1 : bytes_to_nat secret ≤ algebra.order - 1 := Nat.le_sub_one_of_lt hy
    exact Nat.lt_of_lt_of_le
      (Nat.add_lt_add_of_le_of_lt (Nat.mul_le_mul hx1 hy1) hbeta) hsize
  obtain ⟨others, hothers⟩ := Option.ne_none_iff_exists'.1 hplayers
  -- the request ciphertext
  have hreq_wf : paillier_well_formed requester_key.pub
      (paillier_encrypt requester_key.pub x r_request) = true := by
    unfold paillier_encrypt mod_exp
    apply well_formed_of_coprime _ _ hn1 hn2
    rw [hn2]
    exact encrypt_coprime _ _ _ hr1
  -- the response ciphertext
  have hresp_cop : Nat.Coprime
      (paillier_mul requester_key.pub (paillier_encrypt requester_key.pub x r_request)
          (bytes_to_nat secret)
        * paillier_encrypt requester_key.pub beta r_response) requester_key.pub.n := by
    unfold paillier_mul paillier_encrypt mod_exp
    rw [hn2]
    refine Nat.Coprime.mul (coprime_mod_sq _ _ (Nat.Coprime.pow_left _ ?_)) ?_
    · exact coprime_mod_sq _ _ (encrypt_coprime _ _ _ hr1)
    · exact coprime_mod_sq _ _ (encrypt_coprime _ _ _ hr2)
  have hresp_wf : paillier_well_formed requester_key.pub
      (paillier_add requester_key.pub
        (paillier_mul requester_key.pub (paillier_encrypt requester_key.pub x r_request)
          (bytes_to_nat secret))
        (paillier_encrypt requester_key.pub beta r_response)) = true := by
    unfold paillier_add
    exact well_formed_of_coprime _ _ hn1 hn2 hresp_cop
  have hresp_eq : paillier_add requester_key.pub
        (paillier_mul requester_key.pub (paillier_encrypt requester_key.pub x r_request)
          (bytes_to_nat secret))
        (paillier_encrypt requester_key.pub beta r_response)
      ≡ (requester_key.pub.n + 1) ^ (x * bytes_to_nat secret + beta)
        * (r_request ^ bytes_to_nat secret * r_response) ^ requester_key.pub.n
        [MOD requester_key.pub.n * requester_key.pub.n] := by
    unfold paillier_add paillier_mul paillier_encrypt mod_exp
    rw [hn2]
    have e1 : (requester_key.pub.n + 1) ^ x % (requester_key.pub.n * requester_key.pub.n)
          * (r_request ^ requester_key.pub.n % (requester_key.pub.n * requester_key.pub.n))
          % (requester_key.pub.n * requester_key.pub.n)
        ≡ (requester_key.pub.n + 1) ^ x * r_request ^ requester_key.pub.n
          [MOD requester_key.pub.n * requester_key.pub.n] :=
      (Nat.mod_modEq _ _).trans ((Nat.mod_modEq _ _).mul (Nat.mod_modEq _ _))
    have e2 : (requester_key.pub.n + 1) ^ beta % (requester_key.pub.n * requester_key.pub.n)
          * (r_response ^ requester_key.pub.n % (requester_key.pub.n * requester_key.pub.n))
          % (requester_key.pub.n * requester_key.pub.n)
        ≡ (requester_key.pub.n + 1) ^ beta * r_response ^ requester_key.pub.n
          [MOD requester_key.pub.n * requester_key.pub.n] :=
      (Nat.mod_modEq _ _).trans ((Nat.mod_modEq _ _).mul (Nat.mod_modEq _ _))
    have e3 := ((Nat.mod_modEq _ _).trans (e1.pow (bytes_to_nat secret))).mul e2
    refine (Nat.mod_modEq _ _).trans (e3.trans ?_)
    have : ((requester_key.pub.n + 1) ^ x * r_request ^ requester_key.pub.n)
          ^ bytes_to_nat secret
          * ((requester_key.pub.n + 1) ^ beta * r_response ^ requester_key.pub.n)
        = (requester_key.pub.n + 1) ^ (x * bytes_to_nat secret + beta)
          * (r_request ^ bytes_to_nat secret * r_response) ^ requester_key.pub.n := by
      rw [mul_pow, mul_pow, pow_add, ← pow_mul, ← pow_mul, ← pow_mul,
        Nat.mul_comm requester_key.pub.n (bytes_to_nat secret)]
      ring
    rw [this]
  have hunit : Nat.Coprime (r_request ^ bytes_to_nat secret * r_response)
      (requester_key.p * requester_key.q) := by
    rw [← hn]
    exact Nat.Coprime.mul (Nat.Coprime.pow_left _ hr1) hr2
  have hR := pow_mul_lamda_modEq_one requester_key.p requester_key.q _ hp hq hpq hunit
  rw [← hn, ← hlam] at hR
  have hdec := decryption_formula requester_key.pub.n requester_key.lamda requester_key.mu
    _ _ _ hn1 hmu hR hresp_eq
  rw [Nat.mod_eq_of_lt hrange] at hdec
  refine ⟨⟨⟨paillier_encrypt requester_key.pub x r_request,
        provers.request_proof my_id x (paillier_encrypt requester_key.pub x r_request) aad⟩,
      others.map fun e => (e.1, provers.player_proof my_id e.2 x a aad),
      others.map fun e => (e.1, provers.player_G_proof my_id e.2 gamma b aad)⟩,
    ⟨paillier_add requester_key.pub
        (paillier_mul requester_key.pub (paillier_encrypt requester_key.pub x r_request)
          (bytes_to_nat secret))
        (paillier_encrypt requester_key.pub beta r_response),
      provers.response_proof requester_ring_pedersen (bytes_to_nat secret) beta
        (paillier_add requester_key.pub
          (paillier_mul requester_key.pub (paillier_encrypt requester_key.pub x r_request)
            (bytes_to_nat secret))
          (paillier_encrypt requester_key.pub beta r_response)) aad⟩,
    (x * bytes_to_nat secret + beta) % algebra.order,
    (algebra.order - beta % algebra.order) % algebra.order, ?_, ?_, ?_, ?_⟩
  · simp only [request, hx, hgamma, ha, hb, and_self, if_true, hothers]
  · simp only [answer_mta_request, hreq_wf, if_true, hfind]
  · simp only [decrypt_mta_response, paillier_decrypt, hresp_wf, if_true, mod_exp, hn2]
    rw [hdec]
  · exact shares_add _ _ _ ho

/-- Witness of claim C6: the key pair with primes 11 and 13, curve order 7,
`x = 4`, the one-byte secret 6, range bound 100 and the draws 250 and 5, of
which the first is out of range; the shares are 1 and 2, and `4 * 6 = 24`
is 3 modulo 7. -/
theorem mta_round_trip_witness :
    paillier_private_key_t.valid ⟨⟨143, 20449⟩, 11, 13, 120, 87⟩
    ∧ (7 - 1) * (7 - 1) + 100 ≤ 143
    ∧ ∃ (sent : request_result) (response : cmp_mta_message)
        (share_requester share_responder : elliptic_curve_scalar),
        request ⟨fun _ _ _ _ => [], fun _ _ _ _ _ => [], fun _ _ _ _ _ => [],
            fun _ _ _ _ _ => []⟩ 2 1 ⟨7⟩ 4 1 2 3 [] ⟨143, 20449⟩
            [(1, ⟨none, none⟩), (2, ⟨some ⟨15, 225⟩, some ⟨35, 2, 4⟩⟩)]
          = .ok sent
        ∧ answer_mta_request ⟨fun _ _ _ _ => [], fun _ _ _ _ _ => [], fun _ _ _ _ _ => [],
            fun _ _ _ _ _ => []⟩ 100 [250, 5] 3 ⟨7⟩ sent.message [6] []
            ⟨⟨15, 225⟩, 3, 5, 8, 2⟩ ⟨143, 20449⟩ ⟨35, 2, 4⟩
          = .ok (share_responder, response)
        ∧ decrypt_mta_response 2 ⟨7⟩ response.message ⟨⟨143, 20449⟩, 11, 13, 120, 87⟩
          = .ok share_requester
        ∧ (share_requester + share_responder) % 7 = 4 * bytes_to_nat [6] % 7 :=
  ⟨⟨by norm_num, by norm_num, by decide, rfl, rfl, rfl, by decide⟩, by decide,
   mta_round_trip ⟨fun _ _ _ _ => [], fun _ _ _ _ _ => [], fun _ _ _ _ _ => [],
      fun _ _ _ _ _ => []⟩ 100 [250, 5] 2 3 1 2 ⟨7⟩ 4 1 2 3 [6] []
      ⟨⟨143, 20449⟩, 11, 13, 120, 87⟩ ⟨⟨15, 225⟩, 3, 5, 8, 2⟩ ⟨35, 2, 4⟩
      [(1, ⟨none, none⟩), (2, ⟨some ⟨15, 225⟩, some ⟨35, 2, 4⟩⟩)]
      ⟨by norm_num, by norm_num, by decide, rfl, rfl, rfl, by decide⟩
      (by decide) (by decide) (by decide) (by decide) (by decide) (by decide)
      (by simp [other_players_parameters]) (by decide) (by decide)
      ⟨5, by decide, by decide⟩⟩

end mta
